import Mathlib

/-!
Verification of the `openassessment.fileupload.backends.filesystem` storage
backend and the `submissions` data model of edx-ora2.

The filesystem backend issues time-limited upload/download authorizations,
recorded in a Django cache instance (an expiring key/value store), and maps
logical keys to physical file paths and URL paths.  We embed the backend as
pure functions over an explicit state:

* `Backend` holds the Django settings the code reads
  (`ORA2_FILEUPLOAD_ROOT`, `ORA2_FILEUPLOAD_CACHE_NAME`), the bucket name and
  the two grant TTL constants of the base backend class.
* `FSState` holds the expiring cache (mapping a cache key to the absolute
  expiry instant of its entry), the filesystem (`os.path.exists` as a
  predicate on paths) and the current clock value, in seconds.
* Fallible operations (the source raises `FileUploadInternalError` on missing
  configuration) return `Except FileUploadError`.

Django cache semantics modelled: `cache.set(k, v, timeout)` stores the entry
with expiry instant `now + timeout`; `cache.get(k)` returns the value while
`now < expiry` and `None` afterwards (a correctly functioning, non-evicting
backing store).
-/

/-- The `FileUploadInternalError` exception of `openassessment.fileupload.exceptions`. -/
inductive FileUploadError where
  | FileUploadInternalError (msg : String)
deriving Repr, DecidableEq

/-- Decidable equality of `Except` results, component-wise. -/
def exceptDecEq {ε α : Type} [DecidableEq ε] [DecidableEq α] : DecidableEq (Except ε α)
  | .error a, .error b =>
      if h : a = b then .isTrue (by rw [h])
      else .isFalse (fun hh => h (Except.error.inj hh))
  | .error _, .ok _ => .isFalse (fun hh => Except.noConfusion hh)
  | .ok _, .error _ => .isFalse (fun hh => Except.noConfusion hh)
  | .ok a, .ok b =>
      if h : a = b then .isTrue (by rw [h])
      else .isFalse (fun hh => h (Except.ok.inj hh))

instance {ε α : Type} [DecidableEq ε] [DecidableEq α] : DecidableEq (Except ε α) :=
  exceptDecEq

/-- The configuration read by the filesystem backend: the two Django settings
`ORA2_FILEUPLOAD_ROOT` and `ORA2_FILEUPLOAD_CACHE_NAME` (absent attribute is
`none`; Python treats an empty-string root as missing too), together with the
bucket name and the TTL constants.

The bucket name and the TTL constants come from `backends/base.py`, which is
not part of the sources under verification.  Modelled from the spec: the spec
calls them "required configuration" (bucket name) and "a configured upload
TTL" / "a configured download TTL", so they are fields of the configuration,
quantified over in the theorems. -/
structure Backend where
  ORA2_FILEUPLOAD_ROOT : Option String
  ORA2_FILEUPLOAD_CACHE_NAME : Option String
  bucketName : String
  UPLOAD_URL_TIMEOUT : Nat
  DOWNLOAD_URL_TIMEOUT : Nat

/-- The mutable world the backend acts on: the expiring authorization cache
(cache key ↦ absolute expiry instant of the entry, the stored value being the
constant marker `1`), the filesystem (`os.path.exists`), and the clock. -/
structure FSState where
  cache : String → Option Nat
  files : String → Bool
  now : Nat

/-- `BaseBackend._get_key_name` lives in `backends/base.py`, which is not part
of the sources under verification.  Modelled from the spec: the spec treats
the logical key itself as the key name used for grants and addressing (grant
cache keys are `"upload/" + logical_key`, the physical path segment is the
logical key), so the key name is the logical key unchanged. -/
def getKeyName (key : String) : String := key

/-- Python `b.startswith("/")`, stated on the character list. -/
def startsWithSlash (s : String) : Bool := s.data.head? = some '/'

/-- Python `a.endswith("/")`, stated on the character list. -/
def endsWithSlash (s : String) : Bool := s.data.getLast? = some '/'

/-- `os.path.join` for two components, as Python computes it: an absolute
second component discards the first, otherwise the components are joined with
a single `/` separator (none added after an empty or `/`-terminated head). -/
def osPathJoin (a b : String) : String :=
  if startsWithSlash b then b
  else if a = "" then b
  else if endsWithSlash a then a ++ b
  else a ++ "/" ++ b

/-- `os.path.abspath`.  On the already-absolute, already-normalized paths the
backend is configured with, `abspath` is the identity; path normalization
against a process working directory is outside the model. -/
def osPathAbspath (p : String) : String := p

/-- `Backend._get_root_directory_path`: returns the `ORA2_FILEUPLOAD_ROOT`
setting, raising `FileUploadInternalError` when the setting is undefined or
falsy (the empty string). -/
def getRootDirectoryPath (b : Backend) : Except FileUploadError String :=
  match b.ORA2_FILEUPLOAD_ROOT with
  | none => .error (.FileUploadInternalError "Undefined file upload root directory setting")
  | some root =>
      if root = "" then
        .error (.FileUploadInternalError "Undefined file upload root directory setting")
      else
        .ok root

/-- `Backend._get_bucket_path`: `abspath(join(root_directory, bucket_name))`. -/
def getBucketPath (b : Backend) : Except FileUploadError String := do
  let root ← getRootDirectoryPath b
  pure (osPathAbspath (osPathJoin root b.bucketName))

/-- `Backend._get_data_path`: `join(bucket_path, key)`. -/
def getDataPath (b : Backend) (key : String) : Except FileUploadError String := do
  let bucketPath ← getBucketPath b
  pure (osPathJoin bucketPath key)

/-- `Backend._get_file_path`: `join(data_path, "content")`. -/
def getFilePath (b : Backend) (key : String) : Except FileUploadError String := do
  let dataPath ← getDataPath b key
  pure (osPathJoin dataPath "content")

/-- `get_cache`: resolves the cache instance named by
`ORA2_FILEUPLOAD_CACHE_NAME`, raising `FileUploadInternalError` when that
setting is undefined (`is None`).  The state carries the one cache the
configuration names, so resolution returns no data. -/
def get_cache (b : Backend) : Except FileUploadError Unit :=
  match b.ORA2_FILEUPLOAD_CACHE_NAME with
  | none => .error (.FileUploadInternalError "Undefined cache backend for file upload")
  | some _ => .ok ()

/-- Django `cache.set(key, 1, timeout)`: records the entry with absolute
expiry instant `now + timeout`, overwriting any previous entry at that key. -/
def cacheSet (st : FSState) (key : String) (timeout : Nat) : FSState :=
  { st with cache := fun j => if j = key then some (st.now + timeout) else st.cache j }

/-- Django `cache.get(key)`: the stored marker `1` while the entry exists and
has not expired (`now < expiry`), `none` otherwise. -/
def cacheGet (st : FSState) (key : String) : Option Nat :=
  match st.cache key with
  | none => none
  | some expiry => if st.now < expiry then some 1 else none

/-- `get_upload_cache_key`. -/
def get_upload_cache_key (urlKeyName : String) : String := "upload/" ++ urlKeyName

/-- `get_download_cache_key`. -/
def get_download_cache_key (urlKeyName : String) : String := "download/" ++ urlKeyName

/-- `make_upload_url_available`: `get_cache().set(upload_cache_key, 1, timeout)`. -/
def make_upload_url_available (b : Backend) (st : FSState) (urlKeyName : String)
    (timeout : Nat) : Except FileUploadError FSState := do
  let _ ← get_cache b
  pure (cacheSet st (get_upload_cache_key urlKeyName) timeout)

/-- `make_download_url_available`: `get_cache().set(download_cache_key, 1, timeout)`. -/
def make_download_url_available (b : Backend) (st : FSState) (urlKeyName : String)
    (timeout : Nat) : Except FileUploadError FSState := do
  let _ ← get_cache b
  pure (cacheSet st (get_download_cache_key urlKeyName) timeout)

/-- `is_upload_url_available`: `get_cache().get(upload_cache_key) is not None`. -/
def is_upload_url_available (b : Backend) (st : FSState) (urlKeyName : String) :
    Except FileUploadError Bool := do
  let _ ← get_cache b
  pure (cacheGet st (get_upload_cache_key urlKeyName)).isSome

/-- `is_download_url_available`: `get_cache().get(download_cache_key) is not None`. -/
def is_download_url_available (b : Backend) (st : FSState) (urlKeyName : String) :
    Except FileUploadError Bool := do
  let _ ← get_cache b
  pure (cacheGet st (get_download_cache_key urlKeyName)).isSome

/-- Helper for `splitFirstPipe`: scans the character list, accumulating the
prefix until the first `|`. -/
def splitFirstPipeAux : List Char → List Char → String × Option String
  | acc, [] => (String.mk acc.reverse, none)
  | acc, c :: rest =>
      if c = '|' then (String.mk acc.reverse, some (String.mk rest))
      else splitFirstPipeAux (c :: acc) rest

/-- Python `key_name.split("|", 1)`: split at the first `|` only.  The result
is the part before the first `|` and, when a `|` occurs, the whole remainder
after it. -/
def splitFirstPipe (s : String) : String × Option String :=
  splitFirstPipeAux [] s.data

/-- Django `reverse("openassessment-filesystem-storage", ...)` against the
route patterns of `fileupload/urls.py`:
`^(?P<key>[^|]+)\|(?P<filename>.+)/$` when a filename is passed and
`^(?P<key>.+)/$` otherwise.  Modelled as the path each pattern generates;
Django's own regex bookkeeping inside `reverse` is abstracted away. -/
def reverseStorageUrl (key : String) (filename : Option String) : String :=
  match filename with
  | none => "/" ++ key ++ "/"
  | some fn => "/" ++ key ++ "|" ++ fn ++ "/"

/-- `Backend._get_url`: splits the key name at the first `|` and reverses the
storage route with either `key` alone or `key` and `filename`. -/
def getUrl (key : String) : String :=
  let keyName := getKeyName key
  match splitFirstPipe keyName with
  | (k, none) => reverseStorageUrl k none
  | (k, some fn) => reverseStorageUrl k (some fn)

/-- `Backend.get_upload_url`: registers the upload grant for the key name
with the upload TTL, then returns the storage URL.  `content_type` is
accepted and unused, exactly as in the source. -/
def get_upload_url (b : Backend) (st : FSState) (key contentType : String) :
    Except FileUploadError (FSState × String) := do
  let st' ← make_upload_url_available b st (getKeyName key) b.UPLOAD_URL_TIMEOUT
  pure (st', getUrl key)

/-- `Backend.get_download_url`: computes the physical content path for the
key name; when the file does not exist returns the empty string, otherwise
registers the download grant with the download TTL and returns the storage
URL. -/
def get_download_url (b : Backend) (st : FSState) (key : String) :
    Except FileUploadError (FSState × String) := do
  let filePath ← getFilePath b (getKeyName key)
  if st.files filePath then do
    let st' ← make_download_url_available b st (getKeyName key) b.DOWNLOAD_URL_TIMEOUT
    pure (st', getUrl key)
  else
    pure (st, "")

/-- Advance (or set) the clock of the state: the world at instant `t`. -/
def atTime (st : FSState) (t : Nat) : FSState := { st with now := t }

/-! ## The submissions data model (`apps/submissions/models.py`) -/

/-- A `StudentItem` row: one (course, student, content-item) triple with an
item-type tag. -/
structure StudentItem where
  student_id : String
  course_id : String
  item_id : String
  item_type : String
deriving Repr, DecidableEq

/-- The `unique_together` triple of `StudentItem.Meta`, in the declared
order `("course_id", "student_id", "item_id")`. -/
def StudentItem.triple (si : StudentItem) : String × String × String :=
  (si.course_id, si.student_id, si.item_id)

/-- A `Submission` row: one response for a `StudentItem` at some attempt
number.  Times are modelled as instants (`Nat`), the answer as its serialized
text. -/
structure Submission where
  student_item : StudentItem
  attempt_number : Nat
  submitted_at : Nat
  created_at : Nat
  answer : String
deriving Repr, DecidableEq

/-- A `Score` row for a `StudentItem`, optionally tied to a `Submission`. -/
structure Score where
  student_item : StudentItem
  submission : Option Submission
  points_earned : Nat
  points_possible : Nat
  created_at : Nat
deriving Repr, DecidableEq

/-- The submission ledger: the three row tables. -/
structure Ledger where
  studentItems : List StudentItem
  submissions : List Submission
  scores : List Score

/-- The `unique_together = (("course_id", "student_id", "item_id"),)`
constraint of `StudentItem.Meta`: no two rows share the triple. -/
def uniqueTriples (rows : List StudentItem) : Prop :=
  (rows.map StudentItem.triple).Nodup

/-- Modelled from the spec: the ledger's "create StudentItem" operation is
described only by its contract ("idempotent by unique triple"; creating a
duplicate "is rejected or collapses to the same row"); its code is not among
the sources under verification.  When a row with the same triple exists the
ledger is unchanged (collapse to the existing row), otherwise the row is
appended. -/
def createStudentItem (l : Ledger) (si : StudentItem) : Ledger :=
  if l.studentItems.any (fun r => r.triple = si.triple) then l
  else { l with studentItems := l.studentItems ++ [si] }

/-- Modelled from the spec: "append Submission (never update)"; the operation
appends the row and touches no other table. -/
def createSubmission (l : Ledger) (s : Submission) : Ledger :=
  { l with submissions := l.submissions ++ [s] }

/-- Modelled from the spec: "append Score (never update)"; the operation
appends the row and touches no other table. -/
def createScore (l : Ledger) (s : Score) : Ledger :=
  { l with scores := l.scores ++ [s] }

/-! ## Concrete configurations and states used by witnesses -/

/-- A fully configured backend used by witnesses. -/
def bW : Backend :=
  { ORA2_FILEUPLOAD_ROOT := some "/data"
    ORA2_FILEUPLOAD_CACHE_NAME := some "ora2-storage"
    bucketName := "submissions_attachments"
    UPLOAD_URL_TIMEOUT := 3600
    DOWNLOAD_URL_TIMEOUT := 1800 }

/-- A backend with both settings missing, used by the configuration-error
witness. -/
def bBad : Backend :=
  { ORA2_FILEUPLOAD_ROOT := none
    ORA2_FILEUPLOAD_CACHE_NAME := none
    bucketName := "submissions_attachments"
    UPLOAD_URL_TIMEOUT := 3600
    DOWNLOAD_URL_TIMEOUT := 1800 }

/-- An empty world at instant 0: empty cache, no files. -/
def stEmpty : FSState :=
  { cache := fun _ => none
    files := fun _ => false
    now := 0 }

/-- A world whose only file is the content file of key `k1`. -/
def stWithFile : FSState :=
  { cache := fun _ => none
    files := fun p => p = "/data/submissions_attachments/k1/content"
    now := 0 }

/-- The empty ledger, used by witnesses. -/
def ledger0 : Ledger := { studentItems := [], submissions := [], scores := [] }

/-- A concrete `StudentItem` row used by witnesses. -/
def si0 : StudentItem :=
  { student_id := "s1", course_id := "c1", item_id := "i1", item_type := "openassessment" }

/-- A concrete `Submission` row used by witnesses. -/
def sub0 : Submission :=
  { student_item := si0, attempt_number := 1, submitted_at := 10, created_at := 10,
    answer := "{}" }

/-- A concrete `Score` row used by witnesses. -/
def sc0 : Score :=
  { student_item := si0, submission := some sub0, points_earned := 3,
    points_possible := 5, created_at := 20 }

/-! ## Theorems -/

/-- C10: the `content_type` argument of `get_upload_url` is ignored: any two
content types produce the same URL and the same resulting authorization
state. -/
theorem get_upload_url_content_type_ignored (b : Backend) (st : FSState)
    (key ct₁ ct₂ : String) :
    get_upload_url b st key ct₁ = get_upload_url b st key ct₂ := rfl

/-- Scanning a list of the form `l ++ '|' :: r` with no `|` in `l` stops at
that first `|`, leaving the accumulated characters before it and the whole
remainder after it. -/
theorem splitFirstPipeAux_append (l : List Char) : ∀ (acc r : List Char), '|' ∉ l →
    splitFirstPipeAux acc (l ++ '|' :: r) =
      (String.mk (acc.reverse ++ l), some (String.mk r)) := by
  induction l with
  | nil => intro acc r _; simp [splitFirstPipeAux]
  | cons c cs ih =>
    intro acc r h
    have hc : c ≠ '|' := fun hc => h (hc ▸ List.mem_cons_self c cs)
    have h' : '|' ∉ cs := fun hm => h (List.mem_cons_of_mem _ hm)
    have step : splitFirstPipeAux acc (c :: (cs ++ '|' :: r)) =
        splitFirstPipeAux (c :: acc) (cs ++ '|' :: r) := by
      simp [splitFirstPipeAux, hc]
    rw [List.cons_append, step, ih (c :: acc) r h']
    simp [List.reverse_cons, List.append_assoc]

/-- `split("|", 1)` on a string whose first `|` separates `a` from `bpart`
yields exactly `(a, bpart)`: the split happens at the first `|` only, the
remainder keeps its further `|` characters. -/
theorem splitFirstPipe_append (a bpart : String) (h : '|' ∉ a.data) :
    splitFirstPipe (a ++ "|" ++ bpart) = (a, some bpart) := by
  obtain ⟨la⟩ := a
  obtain ⟨lb⟩ := bpart
  have hdata : (String.mk la ++ "|" ++ String.mk lb).data = la ++ '|' :: lb := by
    simp [String.data_append]
  simp only [splitFirstPipe, hdata]
  rw [splitFirstPipeAux_append la [] lb h]
  simp

/-- C4: key splitting for URL generation happens at the first `|` only:
`"abc|def.png"` splits into storage key `"abc"` and filename `"def.png"`,
`"abc"` alone has no filename component, `"a|def|ghi"` splits only at the
first `|` leaving `"def|ghi"` as the filename — and in general any string
`a ++ "|" ++ b` with `|`-free `a` splits into `(a, b)`.  The generated URLs
have the route shapes `/<storage_key>/` and `/<storage_key>|<filename>/`. -/
theorem url_key_splitting :
    splitFirstPipe "abc|def.png" = ("abc", some "def.png") ∧
    splitFirstPipe "abc" = ("abc", none) ∧
    splitFirstPipe "a|def|ghi" = ("a", some "def|ghi") ∧
    (∀ a bpart : String, '|' ∉ a.data →
        splitFirstPipe (a ++ "|" ++ bpart) = (a, some bpart)) ∧
    getUrl "abc|def.png" = "/" ++ "abc" ++ "|" ++ "def.png" ++ "/" ∧
    getUrl "abc" = "/" ++ "abc" ++ "/" ∧
    getUrl "a|def|ghi" = "/" ++ "a" ++ "|" ++ "def|ghi" ++ "/" :=
  ⟨rfl, rfl, rfl, splitFirstPipe_append, rfl, rfl, rfl⟩

/-- Witness for `url_key_splitting` at a concrete input: the general
first-split clause applied to `a = "abc"`, `bpart = "def|ghi"`. -/
theorem url_key_splitting_witness :
    splitFirstPipe ("abc" ++ "|" ++ "def|ghi") = ("abc", some "def|ghi") :=
  url_key_splitting.2.2.2.1 "abc" "def|ghi" (by decide)

/-- With a configured cache name, `make_upload_url_available` sets exactly the
upload cache entry. -/
theorem make_upload_url_available_eq (b : Backend) (st : FSState) (k : String)
    (t : Nat) (cn : String) (hcache : b.ORA2_FILEUPLOAD_CACHE_NAME = some cn) :
    make_upload_url_available b st k t = .ok (cacheSet st (get_upload_cache_key k) t) := by
  simp [make_upload_url_available, get_cache, hcache]

/-- With a configured cache name, `make_download_url_available` sets exactly
the download cache entry. -/
theorem make_download_url_available_eq (b : Backend) (st : FSState) (k : String)
    (t : Nat) (cn : String) (hcache : b.ORA2_FILEUPLOAD_CACHE_NAME = some cn) :
    make_download_url_available b st k t = .ok (cacheSet st (get_download_cache_key k) t) := by
  simp [make_download_url_available, get_cache, hcache]

/-- With a configured cache name, `is_upload_url_available` reads the upload
cache entry. -/
theorem is_upload_url_available_eq (b : Backend) (st : FSState) (k cn : String)
    (hcache : b.ORA2_FILEUPLOAD_CACHE_NAME = some cn) :
    is_upload_url_available b st k = .ok (cacheGet st (get_upload_cache_key k)).isSome := by
  simp [is_upload_url_available, get_cache, hcache]

/-- With a configured cache name, `is_download_url_available` reads the
download cache entry. -/
theorem is_download_url_available_eq (b : Backend) (st : FSState) (k cn : String)
    (hcache : b.ORA2_FILEUPLOAD_CACHE_NAME = some cn) :
    is_download_url_available b st k = .ok (cacheGet st (get_download_cache_key k)).isSome := by
  simp [is_download_url_available, get_cache, hcache]

/-- `cacheSet` stores the expiry instant `now + timeout` at the written key. -/
theorem cacheSet_cache_self (st : FSState) (k : String) (t : Nat) :
    (cacheSet st k t).cache k = some (st.now + t) := by
  simp [cacheSet]

/-- `cacheSet` leaves every other cache key unchanged. -/
theorem cacheSet_cache_other (st : FSState) (k : String) (t : Nat) (j : String)
    (h : j ≠ k) : (cacheSet st k t).cache j = st.cache j := by
  simp [cacheSet, h]

/-- `cacheSet` does not touch the filesystem. -/
theorem cacheSet_files (st : FSState) (k : String) (t : Nat) :
    (cacheSet st k t).files = st.files := rfl

/-- `cacheSet` does not change the clock. -/
theorem cacheSet_now (st : FSState) (k : String) (t : Nat) :
    (cacheSet st k t).now = st.now := rfl

/-- C2: with a configured cache, `get_upload_url` registers the upload grant
for the key name with expiry `now + UPLOAD_URL_TIMEOUT` (leaving every other
cache entry and the filesystem untouched) and returns the URL from key
addressing; the result is independent of which files exist, and re-requesting
on a later state simply resets the grant's expiry to the new `now +
UPLOAD_URL_TIMEOUT`. -/
theorem get_upload_url_registers_grant (b : Backend) (st : FSState)
    (key contentType cn : String)
    (hcache : b.ORA2_FILEUPLOAD_CACHE_NAME = some cn) :
    get_upload_url b st key contentType =
      .ok (cacheSet st (get_upload_cache_key (getKeyName key)) b.UPLOAD_URL_TIMEOUT,
           getUrl key) ∧
    (cacheSet st (get_upload_cache_key (getKeyName key)) b.UPLOAD_URL_TIMEOUT).cache
        (get_upload_cache_key (getKeyName key)) = some (st.now + b.UPLOAD_URL_TIMEOUT) ∧
    (∀ j, j ≠ get_upload_cache_key (getKeyName key) →
      (cacheSet st (get_upload_cache_key (getKeyName key)) b.UPLOAD_URL_TIMEOUT).cache j =
        st.cache j) ∧
    (cacheSet st (get_upload_cache_key (getKeyName key)) b.UPLOAD_URL_TIMEOUT).files =
      st.files ∧
    (∀ f, get_upload_url b { st with files := f } key contentType =
      .ok (cacheSet { st with files := f } (get_upload_cache_key (getKeyName key))
             b.UPLOAD_URL_TIMEOUT, getUrl key)) ∧
    (∀ t₂ : Nat, ∃ st₂ : FSState,
      get_upload_url b
          (atTime (cacheSet st (get_upload_cache_key (getKeyName key))
            b.UPLOAD_URL_TIMEOUT) t₂) key contentType = .ok (st₂, getUrl key) ∧
      st₂.cache (get_upload_cache_key (getKeyName key)) =
        some (t₂ + b.UPLOAD_URL_TIMEOUT)) := by
  refine ⟨?_, cacheSet_cache_self st _ _, fun j hj => cacheSet_cache_other st _ _ j hj,
    rfl, fun f => ?_, fun t₂ => ?_⟩
  · simp [get_upload_url, make_upload_url_available_eq b st _ _ cn hcache]
  · simp [get_upload_url, make_upload_url_available_eq b _ _ _ cn hcache]
  · refine ⟨cacheSet (atTime (cacheSet st (get_upload_cache_key (getKeyName key))
      b.UPLOAD_URL_TIMEOUT) t₂) (get_upload_cache_key (getKeyName key))
      b.UPLOAD_URL_TIMEOUT, ?_, ?_⟩
    · simp [get_upload_url, make_upload_url_available_eq b _ _ _ cn hcache]
    · simp [cacheSet_cache_self, atTime]

/-- Witness for `get_upload_url_registers_grant`: the fully configured
backend `bW`, the empty world, key `"k1"`. -/
theorem get_upload_url_registers_grant_witness :
    get_upload_url bW stEmpty "k1" "image/png" =
      .ok (cacheSet stEmpty (get_upload_cache_key (getKeyName "k1"))
             bW.UPLOAD_URL_TIMEOUT, getUrl "k1") :=
  (get_upload_url_registers_grant bW stEmpty "k1" "image/png" "ora2-storage" rfl).1

/-- C3: after `make_upload_url_available` (resp.
`make_download_url_available`) with TTL `t` at instant `st.now`, the matching
availability check returns `true` at any instant before `t` seconds have
elapsed and `false` at any instant after `t` seconds have elapsed, for the
correctly functioning expiring store of the model. -/
theorem grant_ttl_availability (b : Backend) (st stU stD : FSState)
    (k cn : String) (t tNow : Nat)
    (hcache : b.ORA2_FILEUPLOAD_CACHE_NAME = some cn)
    (hU : make_upload_url_available b st k t = .ok stU)
    (hD : make_download_url_available b st k t = .ok stD) :
    (st.now ≤ tNow → tNow - st.now < t →
      is_upload_url_available b (atTime stU tNow) k = .ok true) ∧
    (tNow - st.now > t →
      is_upload_url_available b (atTime stU tNow) k = .ok false) ∧
    (st.now ≤ tNow → tNow - st.now < t →
      is_download_url_available b (atTime stD tNow) k = .ok true) ∧
    (tNow - st.now > t →
      is_download_url_available b (atTime stD tNow) k = .ok false) := by
  rw [make_upload_url_available_eq b st k t cn hcache] at hU
  rw [make_download_url_available_eq b st k t cn hcache] at hD
  have hU' : stU = cacheSet st (get_upload_cache_key k) t := (Except.ok.inj hU).symm
  have hD' : stD = cacheSet st (get_download_cache_key k) t := (Except.ok.inj hD).symm
  subst hU' hD'
  refine ⟨fun h₁ h₂ => ?_, fun h₃ => ?_, fun h₁ h₂ => ?_, fun h₃ => ?_⟩
  · rw [is_upload_url_available_eq b _ _ cn hcache]
    have hlt : tNow < st.now + t := by omega
    simp [cacheGet, atTime, cacheSet, hlt]
  · rw [is_upload_url_available_eq b _ _ cn hcache]
    have hge : ¬tNow < st.now + t := by omega
    simp [cacheGet, atTime, cacheSet, hge]
  · rw [is_download_url_available_eq b _ _ cn hcache]
    have hlt : tNow < st.now + t := by omega
    simp [cacheGet, atTime, cacheSet, hlt]
  · rw [is_download_url_available_eq b _ _ cn hcache]
    have hge : ¬tNow < st.now + t := by omega
    simp [cacheGet, atTime, cacheSet, hge]

/-- Witness for `grant_ttl_availability`: grant of TTL 60 issued at instant
0 in the empty world, checked at instant 30. -/
theorem grant_ttl_availability_witness :
    is_upload_url_available bW
        (atTime (cacheSet stEmpty (get_upload_cache_key "k1") 60) 30) "k1" =
      .ok true :=
  (grant_ttl_availability bW stEmpty
      (cacheSet stEmpty (get_upload_cache_key "k1") 60)
      (cacheSet stEmpty (get_download_cache_key "k1") 60)
      "k1" "ora2-storage" 60 30 rfl
      (make_upload_url_available_eq bW stEmpty "k1" 60 "ora2-storage" rfl)
      (make_download_url_available_eq bW stEmpty "k1" 60 "ora2-storage" rfl)).1
    (by decide) (by decide)

/-- The upload and download cache keys of the same key name are distinct
strings. -/
theorem upload_download_cache_keys_ne (k : String) :
    get_upload_cache_key k ≠ get_download_cache_key k := by
  intro h
  have hlen : ("upload/" ++ k).length = ("download/" ++ k).length := congrArg _ h
  rw [String.length_append, String.length_append] at hlen
  have h7 : "upload/".length = 7 := rfl
  have h9 : "download/".length = 9 := rfl
  rw [h7, h9] at hlen
  omega

/-- C7: the expiring-store entry keys are exactly `"upload/" + key_name` and
`"download/" + key_name`, and the two directions are independent: with a
configured cache, registering an upload grant leaves
`is_download_url_available` unchanged, and registering a download grant
leaves `is_upload_url_available` unchanged. -/
theorem upload_download_grants_independent (b : Backend) (st : FSState)
    (k cn : String) (t : Nat)
    (hcache : b.ORA2_FILEUPLOAD_CACHE_NAME = some cn) :
    get_upload_cache_key k = "upload/" ++ k ∧
    get_download_cache_key k = "download/" ++ k ∧
    get_upload_cache_key k ≠ get_download_cache_key k ∧
    (∀ stU, make_upload_url_available b st k t = .ok stU →
      is_download_url_available b stU k = is_download_url_available b st k) ∧
    (∀ stD, make_download_url_available b st k t = .ok stD →
      is_upload_url_available b stD k = is_upload_url_available b st k) := by
  refine ⟨rfl, rfl, upload_download_cache_keys_ne k, fun stU hU => ?_, fun stD hD => ?_⟩
  · rw [make_upload_url_available_eq b st k t cn hcache] at hU
    have hU' : stU = cacheSet st (get_upload_cache_key k) t := (Except.ok.inj hU).symm
    subst hU'
    rw [is_download_url_available_eq b _ _ cn hcache,
      is_download_url_available_eq b st _ cn hcache]
    have hne : get_download_cache_key k ≠ get_upload_cache_key k :=
      fun h => upload_download_cache_keys_ne k h.symm
    simp [cacheGet, cacheSet, hne]
  · rw [make_download_url_available_eq b st k t cn hcache] at hD
    have hD' : stD = cacheSet st (get_download_cache_key k) t := (Except.ok.inj hD).symm
    subst hD'
    rw [is_upload_url_available_eq b _ _ cn hcache,
      is_upload_url_available_eq b st _ cn hcache]
    have hne : get_upload_cache_key k ≠ get_download_cache_key k :=
      upload_download_cache_keys_ne k
    simp [cacheGet, cacheSet, hne]

/-- Witness for `upload_download_grants_independent`: after registering an
upload grant for `"k1"` in the empty world, the download availability of
`"k1"` is exactly what it was before. -/
theorem upload_download_grants_independent_witness :
    is_download_url_available bW (cacheSet stEmpty (get_upload_cache_key "k1") 60) "k1" =
      is_download_url_available bW stEmpty "k1" :=
  (upload_download_grants_independent bW stEmpty "k1" "ora2-storage" 60 rfl).2.2.2.1
    (cacheSet stEmpty (get_upload_cache_key "k1") 60)
    (make_upload_url_available_eq bW stEmpty "k1" 60 "ora2-storage" rfl)

/-- C8: when the content file for a key does not exist, `get_download_url`
returns the empty string and the state — the cache, the filesystem and the
clock — entirely unchanged: no grant and no other cache entry is written. -/
theorem get_download_url_missing_blob_frame (b : Backend) (st : FSState)
    (key fp : String)
    (hfp : getFilePath b (getKeyName key) = .ok fp)
    (habsent : st.files fp = false) :
    get_download_url b st key = .ok (st, "") := by
  simp [get_download_url, hfp, habsent, Bind.bind, Except.bind, Pure.pure, Except.pure]

/-- Witness for `get_download_url_missing_blob_frame`: the configured backend
`bW` and the empty world, where no content file exists. -/
theorem get_download_url_missing_blob_frame_witness :
    get_download_url bW stEmpty "k1" = .ok (stEmpty, "") :=
  get_download_url_missing_blob_frame bW stEmpty "k1"
    "/data/submissions_attachments/k1/content" rfl rfl

/-- `getUrl` written without the match: the URL built from the two split
components. -/
theorem getUrl_eq (key : String) :
    getUrl key = reverseStorageUrl (splitFirstPipe (getKeyName key)).1
      (splitFirstPipe (getKeyName key)).2 := by
  cases hp : splitFirstPipe (getKeyName key) with
  | mk k fn => cases fn <;> simp [getUrl, hp]

/-- Both storage-route shapes produce a nonempty URL (they start and end with
`/`). -/
theorem reverseStorageUrl_ne_empty (k : String) (fn : Option String) :
    reverseStorageUrl k fn ≠ "" := by
  have hslash : "/".data = ['/'] := rfl
  have hempty : "".data = ([] : List Char) := rfl
  cases fn with
  | none =>
    intro h
    have hd := congrArg String.data h
    simp only [reverseStorageUrl, String.data_append, hslash, hempty] at hd
    simp at hd
  | some f =>
    intro h
    have hd := congrArg String.data h
    simp only [reverseStorageUrl, String.data_append, hslash, hempty] at hd
    simp at hd

/-- The URL the backend returns for any key is never the empty string. -/
theorem getUrl_ne_empty (key : String) : getUrl key ≠ "" := by
  rw [getUrl_eq]
  exact reverseStorageUrl_ne_empty _ _

/-- C1: with a configured root directory and cache, `get_download_url`
returns the empty string exactly when the content file for the key does not
exist; when the file is absent the state is unchanged, and when it exists the
call registers a download grant expiring at `now + DOWNLOAD_URL_TIMEOUT` and
returns the URL derived from key addressing. -/
theorem get_download_url_spec (b : Backend) (st : FSState) (key root cn : String)
    (hroot : b.ORA2_FILEUPLOAD_ROOT = some root) (hroot0 : root ≠ "")
    (hcache : b.ORA2_FILEUPLOAD_CACHE_NAME = some cn) :
    ∃ fp st' url,
      getFilePath b (getKeyName key) = .ok fp ∧
      get_download_url b st key = .ok (st', url) ∧
      (url = "" ↔ st.files fp = false) ∧
      (st.files fp = false → st' = st) ∧
      (st.files fp = true →
        st' = cacheSet st (get_download_cache_key (getKeyName key))
          b.DOWNLOAD_URL_TIMEOUT ∧
        url = getUrl key ∧
        st'.cache (get_download_cache_key (getKeyName key)) =
          some (st.now + b.DOWNLOAD_URL_TIMEOUT)) := by
  have hroot' : getRootDirectoryPath b = .ok root := by
    simp [getRootDirectoryPath, hroot, hroot0]
  have hfp : getFilePath b (getKeyName key) =
      .ok (osPathJoin (osPathJoin (osPathAbspath (osPathJoin root b.bucketName))
        (getKeyName key)) "content") := by
    simp [getFilePath, getDataPath, getBucketPath, hroot', Bind.bind, Except.bind,
      Pure.pure, Except.pure]
  by_cases hf : st.files (osPathJoin (osPathJoin (osPathAbspath
      (osPathJoin root b.bucketName)) (getKeyName key)) "content") = true
  · refine ⟨_, cacheSet st (get_download_cache_key (getKeyName key))
      b.DOWNLOAD_URL_TIMEOUT, getUrl key, hfp, ?_, ?_, ?_, ?_⟩
    · simp [get_download_url, hfp, hf, make_download_url_available_eq b st _ _ cn hcache,
        Bind.bind, Except.bind, Pure.pure, Except.pure, Functor.map, Except.map]
    · simp [hf, getUrl_ne_empty key]
    · intro hcontra; rw [hf] at hcontra; exact absurd hcontra (by decide)
    · intro _; exact ⟨rfl, rfl, cacheSet_cache_self st _ _⟩
  · have hf' : st.files (osPathJoin (osPathJoin (osPathAbspath
        (osPathJoin root b.bucketName)) (getKeyName key)) "content") = false :=
      Bool.not_eq_true _ ▸ eq_false_of_ne_true hf
    refine ⟨_, st, "", hfp, ?_, ?_, fun _ => rfl, fun hcontra => ?_⟩
    · exact get_download_url_missing_blob_frame b st key _ hfp hf'
    · simp [hf']
    · rw [hf'] at hcontra; exact absurd hcontra (by decide)

/-- Witness for `get_download_url_spec`: the configured backend `bW` and the
world `stWithFile` whose only file is the content file of `"k1"`. -/
theorem get_download_url_spec_witness :
    ∃ fp st' url,
      getFilePath bW (getKeyName "k1") = .ok fp ∧
      get_download_url bW stWithFile "k1" = .ok (st', url) ∧
      (url = "" ↔ stWithFile.files fp = false) ∧
      (stWithFile.files fp = false → st' = stWithFile) ∧
      (stWithFile.files fp = true →
        st' = cacheSet stWithFile (get_download_cache_key (getKeyName "k1"))
          bW.DOWNLOAD_URL_TIMEOUT ∧
        url = getUrl "k1" ∧
        st'.cache (get_download_cache_key (getKeyName "k1")) =
          some (stWithFile.now + bW.DOWNLOAD_URL_TIMEOUT)) :=
  get_download_url_spec bW stWithFile "k1" "/data" "ora2-storage" rfl (by decide) rfl

/-- C6: missing configuration is a fatal error at first use.  When
`ORA2_FILEUPLOAD_ROOT` is undefined or empty, every operation that resolves a
physical path (`_get_root_directory_path`, `_get_file_path`,
`get_download_url`) raises `FileUploadInternalError`; when
`ORA2_FILEUPLOAD_CACHE_NAME` is undefined, `get_cache` and every grant
operation built on it raise `FileUploadInternalError` — none of them returns
an "absent grant" answer instead. -/
theorem missing_configuration_fatal (b : Backend) (st : FSState) (k ct : String)
    (t : Nat) :
    ((b.ORA2_FILEUPLOAD_ROOT = none ∨ b.ORA2_FILEUPLOAD_ROOT = some "") →
      (∃ m, getRootDirectoryPath b = .error (.FileUploadInternalError m)) ∧
      (∃ m, getFilePath b k = .error (.FileUploadInternalError m)) ∧
      (∃ m, get_download_url b st k = .error (.FileUploadInternalError m))) ∧
    (b.ORA2_FILEUPLOAD_CACHE_NAME = none →
      (∃ m, get_cache b = .error (.FileUploadInternalError m)) ∧
      (∃ m, make_upload_url_available b st k t = .error (.FileUploadInternalError m)) ∧
      (∃ m, make_download_url_available b st k t = .error (.FileUploadInternalError m)) ∧
      (∃ m, is_upload_url_available b st k = .error (.FileUploadInternalError m)) ∧
      (∃ m, is_download_url_available b st k = .error (.FileUploadInternalError m)) ∧
      (∃ m, get_upload_url b st k ct = .error (.FileUploadInternalError m)) ∧
      (∀ v, is_upload_url_available b st k ≠ .ok v) ∧
      (∀ v, is_download_url_available b st k ≠ .ok v)) := by
  constructor
  · intro hroot
    have hr : getRootDirectoryPath b =
        .error (.FileUploadInternalError "Undefined file upload root directory setting") := by
      rcases hroot with h | h <;> simp [getRootDirectoryPath, h]
    refine ⟨⟨_, hr⟩, ⟨"Undefined file upload root directory setting", ?_⟩,
      ⟨"Undefined file upload root directory setting", ?_⟩⟩
    · simp [getFilePath, getDataPath, getBucketPath, hr, Bind.bind, Except.bind]
    · simp [get_download_url, getFilePath, getDataPath, getBucketPath, hr,
        Bind.bind, Except.bind]
  · intro hcn
    have hc : get_cache b =
        .error (.FileUploadInternalError "Undefined cache backend for file upload") := by
      simp [get_cache, hcn]
    have hmu : ∀ kk tt, make_upload_url_available b st kk tt =
        .error (.FileUploadInternalError "Undefined cache backend for file upload") := by
      intro kk tt
      simp [make_upload_url_available, hc, Bind.bind, Except.bind]
    have hmd : make_download_url_available b st k t =
        .error (.FileUploadInternalError "Undefined cache backend for file upload") := by
      simp [make_download_url_available, hc, Bind.bind, Except.bind]
    have hiu : is_upload_url_available b st k =
        .error (.FileUploadInternalError "Undefined cache backend for file upload") := by
      simp [is_upload_url_available, hc, Bind.bind, Except.bind]
    have hid : is_download_url_available b st k =
        .error (.FileUploadInternalError "Undefined cache backend for file upload") := by
      simp [is_download_url_available, hc, Bind.bind, Except.bind]
    refine ⟨⟨_, hc⟩, ⟨_, hmu k t⟩, ⟨_, hmd⟩, ⟨_, hiu⟩, ⟨_, hid⟩,
      ⟨"Undefined cache backend for file upload", ?_⟩, ?_, ?_⟩
    · simp [get_upload_url, hmu (getKeyName k) b.UPLOAD_URL_TIMEOUT, Bind.bind, Except.bind]
    · intro v hv; rw [hiu] at hv; exact Except.noConfusion hv
    · intro v hv; rw [hid] at hv; exact Except.noConfusion hv

/-- Witness for `missing_configuration_fatal`: the unconfigured backend
`bBad` (both settings absent). -/
theorem missing_configuration_fatal_witness :
    (∃ m, getRootDirectoryPath bBad = .error (.FileUploadInternalError m)) ∧
    (∃ m, get_download_url bBad stEmpty "k1" = .error (.FileUploadInternalError m)) ∧
    (∃ m, get_cache bBad = .error (.FileUploadInternalError m)) ∧
    (∃ m, get_upload_url bBad stEmpty "k1" "image/png" =
      .error (.FileUploadInternalError m)) :=
  ⟨((missing_configuration_fatal bBad stEmpty "k1" "image/png" 60).1 (Or.inl rfl)).1,
   ((missing_configuration_fatal bBad stEmpty "k1" "image/png" 60).1 (Or.inl rfl)).2.2,
   ((missing_configuration_fatal bBad stEmpty "k1" "image/png" 60).2 rfl).1,
   ((missing_configuration_fatal bBad stEmpty "k1" "image/png" 60).2 rfl).2.2.2.2.2.1⟩

/-- Two path components joined by a `/` never form the empty string. -/
theorem append_slash_ne_empty (a c : String) : a ++ "/" ++ c ≠ "" := by
  intro h
  have hd := congrArg String.data h
  have hslash : "/".data = ['/'] := rfl
  have hempty : "".data = ([] : List Char) := rfl
  simp [String.data_append, hslash, hempty] at hd

/-- C5 counterexample: for the composite key name `"abc|def.png"` the
physical content path keeps the whole key name — filename portion included —
as one path segment; it is NOT the path built from the storage key `"abc"`
alone, which the claim asserts. -/
theorem physical_path_counterexample :
    getFilePath bW (getKeyName "abc|def.png") =
      .ok "/data/submissions_attachments/abc|def.png/content" ∧
    getFilePath bW (getKeyName "abc|def.png") ≠
      .ok "/data/submissions_attachments/abc/content" := by
  constructor
  · rfl
  · decide

/-- C5 (amended): for every key name the physical location of its content is
`root_directory / bucket_name / key_name / "content"`, with `"content"` as
the fixed leaf filename, where the path segment is the FULL key name — for a
composite `storage_key|filename` key the `|filename` portion stays part of
the segment.  The side conditions say the configured root is nonempty and
free of a trailing `/`, and the bucket name and key name do not start with
`/` nor make an intermediate path end in `/`. -/
theorem physical_path_full_key_name (b : Backend) (keyName root : String)
    (hroot : b.ORA2_FILEUPLOAD_ROOT = some root) (hroot0 : root ≠ "")
    (hre : endsWithSlash root = false)
    (hbs : startsWithSlash b.bucketName = false)
    (hks : startsWithSlash keyName = false)
    (hbe : endsWithSlash (root ++ "/" ++ b.bucketName) = false)
    (hke : endsWithSlash (root ++ "/" ++ b.bucketName ++ "/" ++ keyName) = false) :
    getFilePath b keyName =
      .ok (root ++ "/" ++ b.bucketName ++ "/" ++ keyName ++ "/" ++ "content") := by
  have hroot' : getRootDirectoryPath b = .ok root := by
    simp [getRootDirectoryPath, hroot, hroot0]
  have h1 : osPathJoin root b.bucketName = root ++ "/" ++ b.bucketName := by
    simp [osPathJoin, hbs, hre, hroot0]
  have hne1 : ¬root ++ "/" ++ b.bucketName = "" := append_slash_ne_empty root b.bucketName
  have h2 : osPathJoin (root ++ "/" ++ b.bucketName) keyName =
      root ++ "/" ++ b.bucketName ++ "/" ++ keyName := by
    simp [osPathJoin, hks, hbe, hne1]
  have hne2 : ¬root ++ "/" ++ b.bucketName ++ "/" ++ keyName = "" :=
    append_slash_ne_empty (root ++ "/" ++ b.bucketName) keyName
  have hcs : startsWithSlash "content" = false := rfl
  have h3 : osPathJoin (root ++ "/" ++ b.bucketName ++ "/" ++ keyName) "content" =
      root ++ "/" ++ b.bucketName ++ "/" ++ keyName ++ "/" ++ "content" := by
    simp [osPathJoin, hcs, hke, hne2]
  simp [getFilePath, getDataPath, getBucketPath, hroot', osPathAbspath, h1, h2, h3,
    Bind.bind, Except.bind, Pure.pure, Except.pure]

/-- Witness for `physical_path_full_key_name`: the configured backend `bW`
and the composite key name `"abc|def.png"`. -/
theorem physical_path_full_key_name_witness :
    getFilePath bW "abc|def.png" =
      .ok ("/data" ++ "/" ++ bW.bucketName ++ "/" ++ "abc|def.png" ++ "/" ++ "content") :=
  physical_path_full_key_name bW "abc|def.png" "/data" rfl (by decide) (by decide)
    (by decide) (by decide) (by decide) (by decide)

/-- A duplicate-free list holds any given element at most once. -/
theorem nodup_countP_le_one {α : Type} [DecidableEq α] {l : List α} (h : l.Nodup)
    (a : α) : l.countP (fun x => decide (x = a)) ≤ 1 :=
  List.nodup_iff_count_le_one.mp h a

/-- C9: the (course_id, student_id, item_id) triple is unique.  Starting from
any ledger whose `StudentItem` rows already satisfy the constraint, creating
a `StudentItem` either collapses to the existing row (the table is unchanged)
or appends the new row, never produces two rows with the same triple (every
triple occurs at most once afterwards), and appending a `Submission` or a
`Score` leaves the `StudentItem` table — and hence the invariant —
untouched. -/
theorem student_item_unique_triple (l : Ledger) (si : StudentItem)
    (sub : Submission) (sc : Score)
    (h : uniqueTriples l.studentItems) :
    uniqueTriples (createStudentItem l si).studentItems ∧
    ((∃ r ∈ l.studentItems, r.triple = si.triple) ∧
        (createStudentItem l si).studentItems = l.studentItems ∨
      (createStudentItem l si).studentItems = l.studentItems ++ [si]) ∧
    (∀ tr, (((createStudentItem l si).studentItems.map StudentItem.triple).countP
      (fun x => decide (x = tr))) ≤ 1) ∧
    (createSubmission l sub).studentItems = l.studentItems ∧
    (createScore l sc).studentItems = l.studentItems ∧
    uniqueTriples (createSubmission l sub).studentItems ∧
    uniqueTriples (createScore l sc).studentItems := by
  by_cases hc : l.studentItems.any (fun r => decide (r.triple = si.triple)) = true
  · have heq : (createStudentItem l si).studentItems = l.studentItems := by
      simp [createStudentItem, hc]
    have hmem : ∃ r ∈ l.studentItems, r.triple = si.triple := by
      simpa using hc
    refine ⟨heq ▸ h, Or.inl ⟨hmem, heq⟩, ?_, rfl, rfl, h, h⟩
    intro tr
    rw [heq]
    exact nodup_countP_le_one h tr
  · have hc' : l.studentItems.any (fun r => decide (r.triple = si.triple)) = false :=
      eq_false_of_ne_true hc
    have heq : (createStudentItem l si).studentItems = l.studentItems ++ [si] := by
      simp [createStudentItem, hc']
    have hnotin : si.triple ∉ l.studentItems.map StudentItem.triple := by
      intro hmem
      obtain ⟨r, hr, htr⟩ := List.mem_map.mp hmem
      have hall : ∀ r ∈ l.studentItems, ¬r.triple = si.triple := by
        simpa using hc'
      exact hall r hr htr
    have hnodup : uniqueTriples (l.studentItems ++ [si]) := by
      unfold uniqueTriples at h ⊢
      rw [List.map_append]
      rw [List.nodup_append]
      exact ⟨h, List.nodup_singleton _, by
        intro tr htr1 htr2
        simp only [List.map_cons, List.map_nil, List.mem_cons,
          List.not_mem_nil, or_false] at htr2
        exact hnotin (htr2 ▸ htr1)⟩
    refine ⟨heq ▸ hnodup, Or.inr heq, ?_, rfl, rfl, h, h⟩
    intro tr
    rw [heq]
    exact nodup_countP_le_one hnodup tr

/-- Witness for `student_item_unique_triple`: creating `si0` in the empty
ledger appends it as the unique row with its triple. -/
theorem student_item_unique_triple_witness :
    uniqueTriples (createStudentItem ledger0 si0).studentItems ∧
    ((∃ r ∈ ledger0.studentItems, r.triple = si0.triple) ∧
        (createStudentItem ledger0 si0).studentItems = ledger0.studentItems ∨
      (createStudentItem ledger0 si0).studentItems = ledger0.studentItems ++ [si0]) :=
  ⟨(student_item_unique_triple ledger0 si0 sub0 sc0 (by simp [uniqueTriples, ledger0])).1,
   (student_item_unique_triple ledger0 si0 sub0 sc0 (by simp [uniqueTriples, ledger0])).2.1⟩
